import Mathlib

/-!
# Verification of `visible_waves` (`src/__main__.py`)

Shallow embedding of the repository's single source file. The program builds
mono audio waveforms:

* `MonoWave.__init__` (lines 14-25) stores a 1-D signed-integer sample array
  (byteswapping non-native-order input) together with the frame rate, an exact
  rational step `Fraction(1, framerate)` and `duration = size * step`.
* `SimpleHarmonicWave.__init__` (lines 55-66) synthesises
  `round(amplitude * sin(tau * frequency * n / framerate))` for
  `n = 0 .. len(arange(duration*framerate)) - 1`, cast to the target dtype.
* `SquareWave.__init__` (lines 73-85) synthesises `+-amplitude` according to
  the parity of `floor(n / samples_per_half_period)` with
  `samples_per_half_period = Fraction(1, frequency) * framerate / 2`.

Python ints are modelled as `ℤ`, Python `Fraction`s and the (ideal) values of
Python floats as `ℚ`, and real-valued mathematics (`sin`, `pi`) over `ℝ`.
Raised exceptions are modelled with `Except PyError`.
-/

/-- The exception classes the program can raise, by construction site. -/
inductive PyError where
  | valueError (msg : String)
  | assertionError
  | zeroDivisionError
  deriving DecidableEq, Repr

/-- The `numpy` dtype kind codes relevant here: `"i"` (signed integer),
`"u"` (unsigned integer), `"f"` (float), `"b"` (bool). -/
inductive DtypeKind where
  | signedInt
  | unsignedInt
  | floatKind
  | boolKind
  deriving DecidableEq, Repr

/-- The `numpy` byte-order codes after dtype normalisation: `'='` (native),
`'<'`/`'>'` when the stated order differs from the machine's, `'|'` (not
applicable, one-byte item size). -/
inductive ByteOrder where
  | native
  | nonNative
  | notApplicable
  deriving DecidableEq, Repr

/-- A `numpy` dtype: kind code, item size in bytes, byte order. -/
structure Dtype where
  kind : DtypeKind
  itemsize : ℕ
  byteorder : ByteOrder
  deriving DecidableEq, Repr

/-- A (flat) `numpy` array: its dtype, declared dimensionality, and element
values read according to the dtype. -/
structure NDArray where
  dtype : Dtype
  ndim : ℕ
  data : List ℤ
  deriving DecidableEq, Repr

/-- Number of elements of `np.arange(stop)` for a scalar `stop`:
`max 0 ⌈stop⌉`. -/
def arangeLen (stop : ℚ) : ℕ := (Int.ceil stop).toNat

/-- Model of `np.round` (IEEE round half to even) on an exact rational value. -/
def npRoundQ (x : ℚ) : ℤ :=
  if Int.fract x = 1 / 2 then (if Even (Int.floor x) then Int.floor x else Int.floor x + 1)
  else round x

open Classical in
/-- Model of `np.round` (IEEE round half to even) on a real value. -/
noncomputable def npRound (x : ℝ) : ℤ :=
  if Int.fract x = 1 / 2 then (if Even (Int.floor x) then Int.floor x else Int.floor x + 1)
  else round x

/-- Reinterpret the unsigned `8*W`-bit value `u` as a two's-complement signed
integer of width `8*W`. -/
def toSigned (W : ℕ) (u : ℤ) : ℤ :=
  if u < 2 ^ (8 * W - 1) then u else u - 2 ^ (8 * W)

/-- Model of `.astype` to a signed integer dtype of `W` bytes. For values inside the
representable range this is the identity (claim C9); outside it the C-level
float-to-int conversion is undefined behaviour, modelled here as
two's-complement wrap-around. -/
def castSigned (W : ℕ) (z : ℤ) : ℤ :=
  toSigned W (z % 2 ^ (8 * W))

/-- Reverse the `W` bytes of the unsigned value `u`. -/
def bswapU (W : ℕ) (u : ℕ) : ℕ :=
  ((List.range W).map (fun i => u / 256 ^ i % 256 * 256 ^ (W - 1 - i))).sum

/-- Model of `ndarray.byteswap()` on one element: the stored bytes are reversed while
the dtype (hence the read order) is unchanged, so the element value `z` of an
item size `W` array becomes the byte-reversed reinterpretation. -/
def byteswapVal (W : ℕ) (z : ℤ) : ℤ :=
  toSigned W ((bswapU W (z % 2 ^ (8 * W)).toNat : ℕ) : ℤ)

/-- The constant `math.tau`. -/
noncomputable def tau : ℝ := 2 * Real.pi

/-- The stored `MonoWave` object: fields assigned in lines 21-25. -/
structure MonoWave where
  samples : NDArray
  framerate : ℤ
  step : ℚ
  duration : ℚ
  deriving DecidableEq, Repr

/-- Model of `MonoWave.__init__` (lines 14-25):
asserts `samples.dtype.kind == "i"` and `samples.ndim == 1`; byteswaps when
`samples.dtype.byteorder != '='`; the result of line 20's
`samples.view(samples.dtype.newbyteorder('='))` is discarded, so the stored
dtype keeps its original byte order; `step = Fraction(1, framerate)`
(ZeroDivisionError when `framerate = 0`), `duration = samples.size * step`. -/
def monoWaveInit (samples : NDArray) (framerate : ℤ) : Except PyError MonoWave :=
  if samples.dtype.kind ≠ DtypeKind.signedInt then Except.error PyError.assertionError
  else if samples.ndim ≠ 1 then Except.error PyError.assertionError
  else
    let s : NDArray :=
      if samples.dtype.byteorder ≠ ByteOrder.native then
        { samples with data := samples.data.map (byteswapVal samples.dtype.itemsize) }
      else samples
    if framerate = 0 then Except.error PyError.zeroDivisionError
    else Except.ok
      { samples := s
        framerate := framerate
        step := 1 / (framerate : ℚ)
        duration := (s.data.length : ℚ) * (1 / (framerate : ℚ)) }

/-- The sample buffer computed in lines 60-64 of `SimpleHarmonicWave.__init__`:
`amplitude = (2^(8*itemsize-1) - 1) * volume`, and for each `n` in
`arange(duration * framerate)` the value
`round(amplitude * sin(tau * frequency * n / framerate))` cast to the dtype. -/
noncomputable def harmonicSampleList (frequency : ℚ) (dtype : Dtype) (framerate : ℤ)
    (duration : ℚ) (volume : ℚ) : List ℤ :=
  (List.range (arangeLen (duration * (framerate : ℚ)))).map fun (n : ℕ) =>
    castSigned dtype.itemsize
      (npRound ((((2 ^ (8 * dtype.itemsize - 1) - 1) * volume : ℚ) : ℝ) *
        Real.sin (tau * (frequency : ℝ) * (n : ℝ) / (framerate : ℝ))))

/-- Model of `SimpleHarmonicWave.__init__`, sample synthesis part (lines 55-64):
reject a non-signed-integer dtype with `ValueError`, assert the volume range,
then build the sample buffer. -/
noncomputable def simpleHarmonicSamples (frequency : ℚ) (dtype : Dtype) (framerate : ℤ)
    (duration : ℚ) (volume : ℚ) : Except PyError (List ℤ) :=
  if dtype.kind ≠ DtypeKind.signedInt then
    Except.error (PyError.valueError "dtype must be signed integer")
  else if ¬ (0 ≤ volume ∧ volume ≤ 1) then Except.error PyError.assertionError
  else
    Except.ok (harmonicSampleList frequency dtype framerate duration volume)

/-- Model of `SimpleHarmonicWave.__init__` in full (lines 55-66): synthesise the
samples and hand the resulting array (carrying the requested dtype) to
`MonoWave.__init__`. -/
noncomputable def simpleHarmonicWaveInit (frequency : ℚ) (dtype : Dtype) (framerate : ℤ)
    (duration : ℚ) (volume : ℚ) : Except PyError MonoWave :=
  (simpleHarmonicSamples frequency dtype framerate duration volume).bind fun l =>
    monoWaveInit { dtype := dtype, ndim := 1, data := l } framerate

/-- The sample buffer computed in lines 78-83 of `SquareWave.__init__`:
`amplitude = (2^(8*itemsize-1) - 1) * volume`,
`samples_per_half_period = Fraction(1, frequency) * framerate / 2` (an exact
rational), and each sample is
`np.where(n // samples_per_half_period % 2 == 0, amplitude, -amplitude)`
rounded and cast to the dtype. -/
def squareSampleList (frequency : ℚ) (dtype : Dtype) (framerate : ℤ)
    (duration : ℚ) (volume : ℚ) : List ℤ :=
  (List.range (arangeLen (duration * (framerate : ℚ)))).map fun (n : ℕ) =>
    castSigned dtype.itemsize
      (npRoundQ (if Int.floor ((n : ℚ) / (1 / frequency * (framerate : ℚ) / 2)) % 2 = 0
        then (2 ^ (8 * dtype.itemsize - 1) - 1) * volume
        else -((2 ^ (8 * dtype.itemsize - 1) - 1) * volume)))

/-- Model of `SquareWave.__init__`, sample synthesis part (lines 73-83):
reject a non-signed-integer dtype with `ValueError`, assert the volume range;
`Fraction(1, frequency)` raises ZeroDivisionError when `frequency = 0`;
otherwise build the sample buffer. -/
def squareWaveSamples (frequency : ℚ) (dtype : Dtype) (framerate : ℤ)
    (duration : ℚ) (volume : ℚ) : Except PyError (List ℤ) :=
  if dtype.kind ≠ DtypeKind.signedInt then
    Except.error (PyError.valueError "dtype must be signed integer")
  else if ¬ (0 ≤ volume ∧ volume ≤ 1) then Except.error PyError.assertionError
  else if frequency = 0 then Except.error PyError.zeroDivisionError
  else
    Except.ok (squareSampleList frequency dtype framerate duration volume)

/-- Model of `SquareWave.__init__` in full (lines 73-85). -/
def squareWaveInit (frequency : ℚ) (dtype : Dtype) (framerate : ℤ)
    (duration : ℚ) (volume : ℚ) : Except PyError MonoWave :=
  (squareWaveSamples frequency dtype framerate duration volume).bind fun l =>
    monoWaveInit { dtype := dtype, ndim := 1, data := l } framerate

/-- The data handed to the WAV writer by `MonoWave.save` (lines 39-48). -/
structure WavFile where
  nchannels : ℕ
  sampwidth : ℕ
  framerate : ℤ
  comptype : String
  compname : String
  frames : List ℤ
  deriving DecidableEq, Repr

/-- The figure produced by `MonoWave.show` (lines 27-37); `xs` models
`np.arange(0, duration, step)`. -/
structure PlotFigure where
  xlimLow : ℚ
  xlimHigh : ℚ
  title : String
  xlabel : String
  xs : List ℚ
  ys : List ℤ
  deriving DecidableEq, Repr

/-- Model of `MonoWave.save(filename)` (lines 39-48): writes one channel, sample width
`itemsize`, the stored frame rate, compression type `"NONE"`; the method reads
`self` and returns it unchanged (first component is the post-call object). -/
def MonoWave.save (w : MonoWave) (filename : String) : MonoWave × (String × WavFile) :=
  (w, (filename,
    { nchannels := 1
      sampwidth := w.samples.dtype.itemsize
      framerate := w.framerate
      comptype := "NONE"
      compname := "not compressed"
      frames := w.samples.data }))

/-- Model of `MonoWave.show(title)` (lines 27-37), named `showPlot` because `show` is a
Lean keyword: scatter of `(np.arange(0, duration, step), samples)` with x-limit
`256 / framerate`; the method reads `self` and returns it unchanged (first
component is the post-call object). -/
def MonoWave.showPlot (w : MonoWave) (title : String) : MonoWave × PlotFigure :=
  (w,
    { xlimLow := 0
      xlimHigh := 256 / (w.framerate : ℚ)
      title := title
      xlabel := "time (s)"
      xs := (List.range w.samples.data.length).map fun (n : ℕ) => (n : ℚ) * w.step
      ys := w.samples.data })

/-- The dtype `np.int8`: signed, one byte, byte order not applicable. -/
def dtInt8 : Dtype := { kind := DtypeKind.signedInt, itemsize := 1, byteorder := ByteOrder.notApplicable }

/-- The dtype `np.uint8`. -/
def dtUInt8 : Dtype := { kind := DtypeKind.unsignedInt, itemsize := 1, byteorder := ByteOrder.notApplicable }

/-! ## Helper lemmas about rounding and casting -/

lemma floor_le_npRoundQ (x : ℚ) : Int.floor x ≤ npRoundQ x := by
  unfold npRoundQ
  split_ifs with h h2
  · exact le_refl _
  · omega
  · rw [round_eq]
    exact Int.floor_mono (by linarith)

lemma npRoundQ_le_ceil (x : ℚ) : npRoundQ x ≤ Int.ceil x := by
  unfold npRoundQ
  split_ifs with h h2
  · exact Int.floor_le_ceil x
  · refine Int.add_one_le_ceil_iff.mpr ?_
    have h3 := Int.self_sub_floor x
    rw [h] at h3
    linarith
  · rw [round_eq]
    have h1 : x + 1 / 2 < ((Int.ceil x + 1 : ℤ) : ℚ) := by
      have := Int.le_ceil x
      push_cast
      linarith
    have h2 := Int.floor_lt.mpr h1
    omega

lemma npRoundQ_bounds (x : ℚ) (M : ℤ) (h : |x| ≤ (M : ℚ)) :
    -M ≤ npRoundQ x ∧ npRoundQ x ≤ M := by
  obtain ⟨hlo, hhi⟩ := abs_le.mp h
  constructor
  · refine le_trans (Int.le_floor.mpr ?_) (floor_le_npRoundQ x)
    push_cast
    linarith
  · exact le_trans (npRoundQ_le_ceil x) (Int.ceil_le.mpr hhi)

lemma floor_le_npRound (x : ℝ) : Int.floor x ≤ npRound x := by
  unfold npRound
  split_ifs with h h2
  · exact le_refl _
  · omega
  · rw [round_eq]
    exact Int.floor_mono (by linarith)

lemma npRound_le_ceil (x : ℝ) : npRound x ≤ Int.ceil x := by
  unfold npRound
  split_ifs with h h2
  · exact Int.floor_le_ceil x
  · refine Int.add_one_le_ceil_iff.mpr ?_
    have h3 := Int.self_sub_floor x
    rw [h] at h3
    linarith
  · rw [round_eq]
    have h1 : x + 1 / 2 < ((Int.ceil x + 1 : ℤ) : ℝ) := by
      have := Int.le_ceil x
      push_cast
      linarith
  
    have h2 := Int.floor_lt.mpr h1
    omega

lemma npRound_bounds (x : ℝ) (M : ℤ) (h : |x| ≤ (M : ℝ)) :
    -M ≤ npRound x ∧ npRound x ≤ M := by
  obtain ⟨hlo, hhi⟩ := abs_le.mp h
  constructor
  · refine le_trans (Int.le_floor.mpr ?_) (floor_le_npRound x)
    push_cast
    linarith
  · exact le_trans (npRound_le_ceil x) (Int.ceil_le.mpr hhi)

lemma npRoundQ_intCast (n : ℤ) : npRoundQ ((n : ℤ) : ℚ) = n := by
  unfold npRoundQ
  rw [if_neg (by rw [Int.fract_intCast]; norm_num), round_intCast]

lemma npRoundQ_neg (x : ℚ) : npRoundQ (-x) = -npRoundQ x := by
  by_cases h0 : Int.fract x = 0
  · have hx : x = ((Int.floor x : ℤ) : ℚ) := by
      have := Int.self_sub_floor x
      rw [h0] at this
      linarith
    rw [hx, ← Int.cast_neg, npRoundQ_intCast, npRoundQ_intCast]
  · by_cases h : Int.fract x = 1 / 2
    · have hneg : Int.fract (-x) = 1 / 2 := by
        rw [Int.fract_neg h0, h]
        norm_num
      have hceil : Int.ceil x = Int.floor x + 1 := by
        have h1 : ((Int.floor x : ℤ) : ℚ) < x := by
          have h3 := Int.self_sub_floor x
          rw [h] at h3
          linarith
        have h2 := Int.ceil_le_floor_add_one x
        have h3 := Int.add_one_le_ceil_iff.mpr h1
        omega
      have hfl : Int.floor (-x) = -Int.floor x - 1 := by
        rw [Int.floor_neg, hceil]
        ring
      unfold npRoundQ
      rw [if_pos h, if_pos hneg, hfl]
      rcases Int.even_or_odd (Int.floor x) with he | ho
      · have hne : ¬ Even (-Int.floor x - 1) := by
          obtain ⟨k, hk⟩ := he
          rintro ⟨m, hm⟩
          omega
        rw [if_pos he, if_neg hne]
        ring
      · have h1 : ¬ Even (Int.floor x) := by
          obtain ⟨k, hk⟩ := ho
          rintro ⟨m, hm⟩
          omega
        have h2 : Even (-Int.floor x - 1) := by
          obtain ⟨k, hk⟩ := ho
          exact ⟨-k - 1, by omega⟩
        rw [if_neg h1, if_pos h2]
        ring
    · have hneg : Int.fract (-x) ≠ 1 / 2 := by
        rw [Int.fract_neg h0]
        intro hc
        apply h
        linarith
      unfold npRoundQ
      rw [if_neg h, if_neg hneg, round_eq, round_eq]
      have key : -x + 1 / 2 = -(x - 1 / 2) := by ring
      rw [key, Int.floor_neg, neg_inj]
      have hnotint : Int.fract (x - 1 / 2) ≠ 0 := by
        intro hc
        apply h
        have h3 := Int.self_sub_floor (x - 1 / 2)
        rw [hc] at h3
        have hx2 : x = ((Int.floor (x - 1 / 2) : ℤ) : ℚ) + 1 / 2 := by linarith
        rw [hx2, add_comm, Int.fract_add_int]
        exact Int.fract_eq_self.mpr ⟨by norm_num, by norm_num⟩
      have hceil : Int.ceil (x - 1 / 2) = Int.floor (x - 1 / 2) + 1 := by
        have h1 : ((Int.floor (x - 1 / 2) : ℤ) : ℚ) < x - 1 / 2 := by
          have h3 := Int.self_sub_floor (x - 1 / 2)
          have h4 := Int.fract_nonneg (x - 1 / 2)
          have h5 : 0 < Int.fract (x - 1 / 2) := lt_of_le_of_ne h4 (Ne.symm hnotint)
          linarith
        have h5 := Int.add_one_le_ceil_iff.mpr h1
        have h6 := Int.ceil_le_floor_add_one (x - 1 / 2)
        omega
      rw [hceil]
      have hshift : x + 1 / 2 = (x - 1 / 2) + ((1 : ℤ) : ℚ) := by push_cast; ring
      rw [hshift, Int.floor_add_int]

lemma castSigned_eq_self (W : ℕ) (z : ℤ) (hW : 1 ≤ W)
    (h1 : -(2 ^ (8 * W - 1)) ≤ z) (h2 : z < 2 ^ (8 * W - 1)) :
    castSigned W z = z := by
  have hpow : (2 : ℤ) ^ (8 * W) = 2 ^ (8 * W - 1) * 2 := by
    rw [← pow_succ, Nat.sub_add_cancel (by omega : 1 ≤ 8 * W)]
  have hH : (0 : ℤ) < 2 ^ (8 * W - 1) := by positivity
  unfold castSigned toSigned
  rcases le_or_lt 0 z with hz | hz
  · have hmod : z % 2 ^ (8 * W) = z := Int.emod_eq_of_lt hz (by omega)
    rw [hmod, if_pos h2]
  · have hrw : z % 2 ^ (8 * W) = (z + 2 ^ (8 * W) * 1) % 2 ^ (8 * W) := by
      rw [Int.add_mul_emod_self_left]
    have hmod : z % 2 ^ (8 * W) = z + 2 ^ (8 * W) := by
      rw [hrw, mul_one]
      exact Int.emod_eq_of_lt (by omega) (by omega)
    rw [hmod, if_neg (by omega)]
    omega

/-! ## Claim theorems -/

/-- C5: constructing either generator with a dtype that is not a signed
integer type fails with the `ValueError` raised before any sample is
computed (in the embedding the error branch is taken without touching the
sample expressions), both for the synthesis step and the full constructor. -/
theorem invalid_dtype_rejected (frequency : ℚ) (dtype : Dtype) (framerate : ℤ)
    (duration volume : ℚ) (h : dtype.kind ≠ DtypeKind.signedInt) :
    simpleHarmonicSamples frequency dtype framerate duration volume
        = Except.error (PyError.valueError "dtype must be signed integer") ∧
      squareWaveSamples frequency dtype framerate duration volume
        = Except.error (PyError.valueError "dtype must be signed integer") ∧
      simpleHarmonicWaveInit frequency dtype framerate duration volume
        = Except.error (PyError.valueError "dtype must be signed integer") ∧
      squareWaveInit frequency dtype framerate duration volume
        = Except.error (PyError.valueError "dtype must be signed integer") := by
  have h1 : simpleHarmonicSamples frequency dtype framerate duration volume
      = Except.error (PyError.valueError "dtype must be signed integer") := by
    unfold simpleHarmonicSamples
    rw [if_pos h]
  have h2 : squareWaveSamples frequency dtype framerate duration volume
      = Except.error (PyError.valueError "dtype must be signed integer") := by
    unfold squareWaveSamples
    rw [if_pos h]
  refine ⟨h1, h2, ?_, ?_⟩
  · unfold simpleHarmonicWaveInit
    rw [h1]
    rfl
  · unfold squareWaveInit
    rw [h2]
    rfl

/-- Witness for C5 at `uint8`. -/
theorem invalid_dtype_rejected_witness :
    dtUInt8.kind ≠ DtypeKind.signedInt ∧
      (simpleHarmonicSamples 440 dtUInt8 44100 1 1
          = Except.error (PyError.valueError "dtype must be signed integer") ∧
        squareWaveSamples 440 dtUInt8 44100 1 1
          = Except.error (PyError.valueError "dtype must be signed integer") ∧
        simpleHarmonicWaveInit 440 dtUInt8 44100 1 1
          = Except.error (PyError.valueError "dtype must be signed integer") ∧
        squareWaveInit 440 dtUInt8 44100 1 1
          = Except.error (PyError.valueError "dtype must be signed integer")) :=
  ⟨by decide, invalid_dtype_rejected 440 dtUInt8 44100 1 1 (by decide)⟩

/-- C8: `MonoWave` objects are immutable after construction: `show` and
`save` return the object with every field unchanged. -/
theorem wave_immutable (w : MonoWave) (title filename : String) :
    (MonoWave.showPlot w title).fst = w ∧ (MonoWave.save w filename).fst = w :=
  ⟨rfl, rfl⟩

/-- C10: both generators are deterministic: equal arguments give equal
resulting objects (sample buffer, framerate, step, duration alike). -/
theorem generators_deterministic (f₁ f₂ : ℚ) (d₁ d₂ : Dtype) (r₁ r₂ : ℤ)
    (t₁ t₂ v₁ v₂ : ℚ) (hf : f₁ = f₂) (hd : d₁ = d₂) (hr : r₁ = r₂)
    (ht : t₁ = t₂) (hv : v₁ = v₂) :
    simpleHarmonicWaveInit f₁ d₁ r₁ t₁ v₁ = simpleHarmonicWaveInit f₂ d₂ r₂ t₂ v₂ ∧
      squareWaveInit f₁ d₁ r₁ t₁ v₁ = squareWaveInit f₂ d₂ r₂ t₂ v₂ := by
  subst hf hd hr ht hv
  exact ⟨rfl, rfl⟩

/-- Witness for C10 at the program's own parameters. -/
theorem generators_deterministic_witness :
    (440 : ℚ) = 440 ∧
      (simpleHarmonicWaveInit 440 dtInt8 44100 1 (1 / 2)
          = simpleHarmonicWaveInit 440 dtInt8 44100 1 (1 / 2) ∧
        squareWaveInit 440 dtInt8 44100 1 (1 / 2)
          = squareWaveInit 440 dtInt8 44100 1 (1 / 2)) :=
  ⟨rfl, generators_deterministic 440 440 dtInt8 dtInt8 44100 44100 1 1 (1 / 2) (1 / 2)
    rfl rfl rfl rfl rfl⟩

/-- C7: a successfully constructed `MonoWave` has `step = 1/framerate` and
`duration = sample_count * step`, both exact rationals. -/
theorem wave_step_duration (samples : NDArray) (framerate : ℤ) (w : MonoWave)
    (hr : 0 < framerate) (h : monoWaveInit samples framerate = Except.ok w) :
    w.step = 1 / (framerate : ℚ) ∧
      w.duration = (w.samples.data.length : ℚ) * (1 / (framerate : ℚ)) := by
  unfold monoWaveInit at h
  dsimp only at h
  split_ifs at h <;> simp at h
  all_goals subst h
  all_goals exact ⟨by simp [one_div], by simp [one_div]⟩

/-- The array `np.array([5], dtype=np.int8)` (native order in the model). -/
def arrPlain : NDArray :=
  { dtype := { kind := DtypeKind.signedInt, itemsize := 1, byteorder := ByteOrder.native }
    ndim := 1
    data := [5] }

/-- The wave stored for `MonoWave(arrPlain, 8)`. -/
def wPlain : MonoWave :=
  { samples := arrPlain
    framerate := 8
    step := 1 / ((8 : ℤ) : ℚ)
    duration := ((arrPlain.data.length : ℕ) : ℚ) * (1 / ((8 : ℤ) : ℚ)) }

/-- Witness for C7 at a one-sample buffer and rate 8. -/
theorem wave_step_duration_witness :
    (0 : ℤ) < 8 ∧ monoWaveInit arrPlain 8 = Except.ok wPlain ∧
      (wPlain.step = 1 / ((8 : ℤ) : ℚ) ∧
        wPlain.duration = (wPlain.samples.data.length : ℚ) * (1 / ((8 : ℤ) : ℚ))) :=
  ⟨by decide, rfl, wave_step_duration arrPlain 8 wPlain (by decide) rfl⟩

/-- C6 (refuting evaluation): `MonoWave.__init__` on a 1-D signed 16-bit
array with non-native byte order and value 1 stores the value 256 and keeps
the non-native byte order: line 20 byteswaps the data, and the result of
line 21's `view(newbyteorder('='))` is discarded, so neither the claimed
value preservation nor the byte-order normalisation happens. -/
theorem monoWave_byteswap_corrupts :
    (monoWaveInit
        { dtype := { kind := DtypeKind.signedInt, itemsize := 2, byteorder := ByteOrder.nonNative }
          ndim := 1
          data := [1] } 44100).toOption.map
        (fun w => (w.samples.data, w.samples.dtype.byteorder))
      = some ([256], ByteOrder.nonNative) := by
  decide

/-- C3 (counterexample): with `framerate = 3` and `duration = 2/5` the
harmonic generator produces 2 samples, while `round(duration * framerate)
= round(6/5) = 1`. The sample count is the `arange` length
`⌈duration * framerate⌉`, not the claimed `round(duration * framerate)`. -/
theorem harmonic_count_not_round :
    simpleHarmonicSamples 1 dtInt8 3 (2 / 5) 1
        = Except.ok (harmonicSampleList 1 dtInt8 3 (2 / 5) 1) ∧
      ((harmonicSampleList 1 dtInt8 3 (2 / 5) 1).length : ℤ)
        ≠ npRoundQ ((2 / 5 : ℚ) * ((3 : ℤ) : ℚ)) := by
  constructor
  · unfold simpleHarmonicSamples
    rw [if_neg (by decide), if_neg (by norm_num)]
  · unfold harmonicSampleList
    rw [List.length_map, List.length_range]
    have h1 : ((2 : ℚ) / 5 * ((3 : ℤ) : ℚ)) = 6 / 5 := by norm_num
    have h2 : arangeLen ((2 : ℚ) / 5 * ((3 : ℤ) : ℚ)) = 2 := by
      unfold arangeLen
      rw [h1, show Int.ceil ((6 : ℚ) / 5) = 2 by rw [Int.ceil_eq_iff]; norm_num]
      rfl
    have h3 : npRoundQ ((2 / 5 : ℚ) * ((3 : ℤ) : ℚ)) = 1 := by
      unfold npRoundQ
      rw [h1, if_neg (by norm_num [Int.fract])]
      norm_num [round_eq]
    rw [h2, h3]
    norm_num

/-- C3 (amended): the harmonic sample count equals
`⌈duration * framerate⌉` (clamped to 0 from below). -/
theorem harmonic_count (frequency : ℚ) (dtype : Dtype) (framerate : ℤ)
    (duration volume : ℚ) (hk : dtype.kind = DtypeKind.signedInt)
    (hv : 0 ≤ volume ∧ volume ≤ 1) :
    simpleHarmonicSamples frequency dtype framerate duration volume
        = Except.ok (harmonicSampleList frequency dtype framerate duration volume) ∧
      (harmonicSampleList frequency dtype framerate duration volume).length
        = (Int.ceil (duration * (framerate : ℚ))).toNat := by
  constructor
  · unfold simpleHarmonicSamples
    rw [if_neg (not_not_intro hk), if_neg (not_not_intro hv)]
  · unfold harmonicSampleList
    rw [List.length_map, List.length_range]
    rfl

/-- Witness for the amended C3 at the program's own parameters. -/
theorem harmonic_count_witness :
    dtInt8.kind = DtypeKind.signedInt ∧ ((0 : ℚ) ≤ 1 / 2 ∧ (1 / 2 : ℚ) ≤ 1) ∧
      (simpleHarmonicSamples 440 dtInt8 44100 1 (1 / 2)
          = Except.ok (harmonicSampleList 440 dtInt8 44100 1 (1 / 2)) ∧
        (harmonicSampleList 440 dtInt8 44100 1 (1 / 2)).length
          = (Int.ceil ((1 : ℚ) * ((44100 : ℤ) : ℚ))).toNat) :=
  ⟨rfl, by norm_num, harmonic_count 440 dtInt8 44100 1 (1 / 2) rfl (by norm_num)⟩

/-- The rounded amplitude is nonnegative and bounded by `2^(8W-1) - 1` when
`0 ≤ volume ≤ 1`. -/
lemma amp_range (W : ℕ) (volume : ℚ) (hv : 0 ≤ volume ∧ volume ≤ 1) :
    0 ≤ (2 ^ (8 * W - 1) - 1 : ℚ) * volume ∧
      (2 ^ (8 * W - 1) - 1 : ℚ) * volume ≤ ((2 ^ (8 * W - 1) - 1 : ℤ) : ℚ) := by
  have hc : ((2 ^ (8 * W - 1) - 1 : ℤ) : ℚ) = (2 ^ (8 * W - 1) - 1 : ℚ) := by
    push_cast
    ring
  have hz : (0 : ℤ) < 2 ^ (8 * W - 1) := pow_pos (by norm_num) _
  have h1 : (0 : ℚ) ≤ 2 ^ (8 * W - 1) - 1 := by
    have h2 : (1 : ℤ) ≤ 2 ^ (8 * W - 1) := by omega
    have h3 : (1 : ℚ) ≤ 2 ^ (8 * W - 1) := by exact_mod_cast h2
    linarith
  refine ⟨mul_nonneg h1 hv.1, ?_⟩
  rw [hc]
  exact mul_le_of_le_one_right h1 hv.2

lemma npRoundQ_amp_range (W : ℕ) (volume : ℚ) (hv : 0 ≤ volume ∧ volume ≤ 1) :
    -(2 ^ (8 * W - 1) - 1) ≤ npRoundQ ((2 ^ (8 * W - 1) - 1 : ℚ) * volume) ∧
      npRoundQ ((2 ^ (8 * W - 1) - 1 : ℚ) * volume) ≤ 2 ^ (8 * W - 1) - 1 := by
  obtain ⟨h0, h1⟩ := amp_range W volume hv
  exact npRoundQ_bounds _ _ (by rw [abs_of_nonneg h0]; exact h1)

/-- C1: for every valid harmonic construction the buffer is accepted and
`sample[n] = round(amplitude * sin(tau * frequency * n / framerate))` cast to
the target signed type, with `amplitude = (2^(8W-1) - 1) * volume`, for every
index `n` below the buffer length. -/
theorem harmonic_sample_values (frequency : ℚ) (dtype : Dtype) (framerate : ℤ)
    (duration volume : ℚ) (hk : dtype.kind = DtypeKind.signedInt)
    (hv : 0 ≤ volume ∧ volume ≤ 1) :
    simpleHarmonicSamples frequency dtype framerate duration volume
        = Except.ok (harmonicSampleList frequency dtype framerate duration volume) ∧
      ∀ (n : ℕ) (hn : n < (harmonicSampleList frequency dtype framerate duration volume).length),
        (harmonicSampleList frequency dtype framerate duration volume)[n]
          = castSigned dtype.itemsize (npRound
              ((((2 ^ (8 * dtype.itemsize - 1) - 1) * volume : ℚ) : ℝ) *
                Real.sin (tau * (frequency : ℝ) * (n : ℝ) / (framerate : ℝ)))) := by
  constructor
  · unfold simpleHarmonicSamples
    rw [if_neg (not_not_intro hk), if_neg (not_not_intro hv)]
  · intro n hn
    simp only [harmonicSampleList, List.getElem_map, List.getElem_range]

/-- Witness for C1 at the program's own parameters. -/
theorem harmonic_sample_values_witness :
    dtInt8.kind = DtypeKind.signedInt ∧ ((0 : ℚ) ≤ 1 / 2 ∧ (1 / 2 : ℚ) ≤ 1) ∧
      (simpleHarmonicSamples 440 dtInt8 44100 1 (1 / 2)
          = Except.ok (harmonicSampleList 440 dtInt8 44100 1 (1 / 2)) ∧
        ∀ (n : ℕ) (hn : n < (harmonicSampleList 440 dtInt8 44100 1 (1 / 2)).length),
          (harmonicSampleList 440 dtInt8 44100 1 (1 / 2))[n]
            = castSigned dtInt8.itemsize (npRound
                ((((2 ^ (8 * dtInt8.itemsize - 1) - 1) * (1 / 2) : ℚ) : ℝ) *
                  Real.sin (tau * ((440 : ℚ) : ℝ) * (n : ℝ) / ((44100 : ℤ) : ℝ))))) :=
  ⟨rfl, by norm_num, harmonic_sample_values 440 dtInt8 44100 1 (1 / 2) rfl (by norm_num)⟩

/-- C2: for every valid square-wave construction, the half-period
`Fraction(1, frequency) * framerate / 2` equals the exact rational
`framerate / (2 * frequency)`, and `sample[n]` is `+amplitude` when
`floor(n / half_period)` is even and `-amplitude` otherwise, rounded and cast
to the target signed type. -/
theorem square_sample_values (frequency : ℚ) (dtype : Dtype) (framerate : ℤ)
    (duration volume : ℚ) (hk : dtype.kind = DtypeKind.signedInt)
    (hv : 0 ≤ volume ∧ volume ≤ 1) (hf : 0 < frequency) :
    1 / frequency * (framerate : ℚ) / 2 = (framerate : ℚ) / (2 * frequency) ∧
      squareWaveSamples frequency dtype framerate duration volume
        = Except.ok (squareSampleList frequency dtype framerate duration volume) ∧
      ∀ (n : ℕ) (hn : n < (squareSampleList frequency dtype framerate duration volume).length),
        (squareSampleList frequency dtype framerate duration volume)[n]
          = castSigned dtype.itemsize (npRoundQ
              (if Int.floor ((n : ℚ) / ((framerate : ℚ) / (2 * frequency))) % 2 = 0
                then (2 ^ (8 * dtype.itemsize - 1) - 1) * volume
                else -((2 ^ (8 * dtype.itemsize - 1) - 1) * volume))) := by
  have hf0 : frequency ≠ 0 := ne_of_gt hf
  have hhp : 1 / frequency * (framerate : ℚ) / 2 = (framerate : ℚ) / (2 * frequency) := by
    rw [one_div, inv_mul_eq_div, div_div, mul_comm frequency 2]
  refine ⟨hhp, ?_, ?_⟩
  · unfold squareWaveSamples
    rw [if_neg (not_not_intro hk), if_neg (not_not_intro hv), if_neg hf0]
  · intro n hn
    simp only [squareSampleList, List.getElem_map, List.getElem_range, hhp]

/-- Witness for C2 at the program's own parameters. -/
theorem square_sample_values_witness :
    dtInt8.kind = DtypeKind.signedInt ∧ ((0 : ℚ) ≤ 1 / 2 ∧ (1 / 2 : ℚ) ≤ 1) ∧
      (0 : ℚ) < 440 ∧
      (1 / (440 : ℚ) * ((44100 : ℤ) : ℚ) / 2 = ((44100 : ℤ) : ℚ) / (2 * 440) ∧
        squareWaveSamples 440 dtInt8 44100 1 (1 / 2)
          = Except.ok (squareSampleList 440 dtInt8 44100 1 (1 / 2)) ∧
        ∀ (n : ℕ) (hn : n < (squareSampleList 440 dtInt8 44100 1 (1 / 2)).length),
          (squareSampleList 440 dtInt8 44100 1 (1 / 2))[n]
            = castSigned dtInt8.itemsize (npRoundQ
                (if Int.floor ((n : ℚ) / (((44100 : ℤ) : ℚ) / (2 * 440))) % 2 = 0
                  then (2 ^ (8 * dtInt8.itemsize - 1) - 1) * (1 / 2)
                  else -((2 ^ (8 * dtInt8.itemsize - 1) - 1) * (1 / 2))))) :=
  ⟨rfl, by norm_num, by norm_num,
    square_sample_values 440 dtInt8 44100 1 (1 / 2) rfl (by norm_num) (by norm_num)⟩

/-- C4: every sample of a valid square wave equals the rounded amplitude or
its negation, i.e. the buffer takes only the two values
`+round((2^(8W-1) - 1) * volume)` and `-round((2^(8W-1) - 1) * volume)`. -/
theorem square_two_values (frequency : ℚ) (dtype : Dtype) (framerate : ℤ)
    (duration volume : ℚ) (hk : dtype.kind = DtypeKind.signedInt)
    (hW : 1 ≤ dtype.itemsize) (hv : 0 ≤ volume ∧ volume ≤ 1) (hf : frequency ≠ 0) :
    squareWaveSamples frequency dtype framerate duration volume
        = Except.ok (squareSampleList frequency dtype framerate duration volume) ∧
      ∀ x ∈ squareSampleList frequency dtype framerate duration volume,
        x = npRoundQ ((2 ^ (8 * dtype.itemsize - 1) - 1) * volume) ∨
          x = -npRoundQ ((2 ^ (8 * dtype.itemsize - 1) - 1) * volume) := by
  constructor
  · unfold squareWaveSamples
    rw [if_neg (not_not_intro hk), if_neg (not_not_intro hv), if_neg hf]
  · intro x hx
    unfold squareSampleList at hx
    simp only [List.mem_map, List.mem_range] at hx
    obtain ⟨n, hn, rfl⟩ := hx
    obtain ⟨hlo, hhi⟩ := npRoundQ_amp_range dtype.itemsize volume hv
    have hpow : (0 : ℤ) < 2 ^ (8 * dtype.itemsize - 1) := pow_pos (by norm_num) _
    split_ifs with hc
    · left
      exact castSigned_eq_self _ _ hW (by omega) (by omega)
    · right
      rw [npRoundQ_neg]
      exact castSigned_eq_self _ _ hW (by omega) (by omega)

/-- Witness for C4 at the program's own parameters. -/
theorem square_two_values_witness :
    dtInt8.kind = DtypeKind.signedInt ∧ 1 ≤ dtInt8.itemsize ∧
      ((0 : ℚ) ≤ 1 / 2 ∧ (1 / 2 : ℚ) ≤ 1) ∧ (440 : ℚ) ≠ 0 ∧
      (squareWaveSamples 440 dtInt8 44100 1 (1 / 2)
          = Except.ok (squareSampleList 440 dtInt8 44100 1 (1 / 2)) ∧
        ∀ x ∈ squareSampleList 440 dtInt8 44100 1 (1 / 2),
          x = npRoundQ ((2 ^ (8 * dtInt8.itemsize - 1) - 1) * (1 / 2)) ∨
            x = -npRoundQ ((2 ^ (8 * dtInt8.itemsize - 1) - 1) * (1 / 2))) :=
  ⟨rfl, by decide, by norm_num, by norm_num,
    square_two_values 440 dtInt8 44100 1 (1 / 2) rfl (by decide) (by norm_num) (by norm_num)⟩

/-- C9: under the volume precondition every sample of either generator lies
in `[-(2^(8W-1) - 1), 2^(8W-1) - 1]`, so the cast to the signed target type
never overflows (it is the identity on every produced value). -/
theorem samples_in_range (frequency : ℚ) (dtype : Dtype) (framerate : ℤ)
    (duration volume : ℚ) (hk : dtype.kind = DtypeKind.signedInt)
    (hW : 1 ≤ dtype.itemsize) (hv : 0 ≤ volume ∧ volume ≤ 1) (hf : frequency ≠ 0) :
    (simpleHarmonicSamples frequency dtype framerate duration volume
        = Except.ok (harmonicSampleList frequency dtype framerate duration volume) ∧
      ∀ x ∈ harmonicSampleList frequency dtype framerate duration volume,
        -(2 ^ (8 * dtype.itemsize - 1) - 1) ≤ x ∧ x ≤ 2 ^ (8 * dtype.itemsize - 1) - 1) ∧
    (squareWaveSamples frequency dtype framerate duration volume
        = Except.ok (squareSampleList frequency dtype framerate duration volume) ∧
      ∀ x ∈ squareSampleList frequency dtype framerate duration volume,
        -(2 ^ (8 * dtype.itemsize - 1) - 1) ≤ x ∧ x ≤ 2 ^ (8 * dtype.itemsize - 1) - 1) := by
  have hpow : (0 : ℤ) < 2 ^ (8 * dtype.itemsize - 1) := pow_pos (by norm_num) _
  obtain ⟨hA0, hAM⟩ := amp_range dtype.itemsize volume hv
  constructor
  · constructor
    · unfold simpleHarmonicSamples
      rw [if_neg (not_not_intro hk), if_neg (not_not_intro hv)]
    · intro x hx
      unfold harmonicSampleList at hx
      simp only [List.mem_map, List.mem_range] at hx
      obtain ⟨n, hn, rfl⟩ := hx
      set θ : ℝ := tau * (frequency : ℝ) * (n : ℝ) / (framerate : ℝ) with hθ
      have hsin : |Real.sin θ| ≤ 1 := abs_le.mpr ⟨Real.neg_one_le_sin θ, Real.sin_le_one θ⟩
      have habs : |((((2 ^ (8 * dtype.itemsize - 1) - 1) * volume : ℚ) : ℝ)) * Real.sin θ|
          ≤ (((2 ^ (8 * dtype.itemsize - 1) - 1 : ℤ)) : ℝ) := by
        rw [abs_mul]
        have hA0R : (0 : ℝ) ≤ (((2 ^ (8 * dtype.itemsize - 1) - 1) * volume : ℚ) : ℝ) := by
          exact_mod_cast hA0
        have hAMR : (((2 ^ (8 * dtype.itemsize - 1) - 1) * volume : ℚ) : ℝ)
            ≤ (((2 ^ (8 * dtype.itemsize - 1) - 1 : ℤ)) : ℝ) := by
          exact_mod_cast hAM
        calc |(((2 ^ (8 * dtype.itemsize - 1) - 1) * volume : ℚ) : ℝ)| * |Real.sin θ|
            ≤ |(((2 ^ (8 * dtype.itemsize - 1) - 1) * volume : ℚ) : ℝ)| * 1 :=
              mul_le_mul_of_nonneg_left hsin (abs_nonneg _)
          _ = (((2 ^ (8 * dtype.itemsize - 1) - 1) * volume : ℚ) : ℝ) := by
              rw [mul_one, abs_of_nonneg hA0R]
          _ ≤ (((2 ^ (8 * dtype.itemsize - 1) - 1 : ℤ)) : ℝ) := hAMR
      obtain ⟨hlo, hhi⟩ := npRound_bounds _ _ habs
      rw [castSigned_eq_self _ _ hW (by omega) (by omega)]
      exact ⟨hlo, hhi⟩
  · constructor
    · unfold squareWaveSamples
      rw [if_neg (not_not_intro hk), if_neg (not_not_intro hv), if_neg hf]
    · intro x hx
      unfold squareSampleList at hx
      simp only [List.mem_map, List.mem_range] at hx
      obtain ⟨n, hn, rfl⟩ := hx
      obtain ⟨hlo, hhi⟩ := npRoundQ_amp_range dtype.itemsize volume hv
      split_ifs with hc
      · rw [castSigned_eq_self _ _ hW (by omega) (by omega)]
        exact ⟨hlo, hhi⟩
      · rw [npRoundQ_neg, castSigned_eq_self _ _ hW (by omega) (by omega)]
        constructor
        · omega
        · omega

/-- Witness for C9 at the program's own parameters. -/
theorem samples_in_range_witness :
    dtInt8.kind = DtypeKind.signedInt ∧ 1 ≤ dtInt8.itemsize ∧
      ((0 : ℚ) ≤ 1 / 2 ∧ (1 / 2 : ℚ) ≤ 1) ∧ (440 : ℚ) ≠ 0 ∧
      ((simpleHarmonicSamples 440 dtInt8 44100 1 (1 / 2)
          = Except.ok (harmonicSampleList 440 dtInt8 44100 1 (1 / 2)) ∧
        ∀ x ∈ harmonicSampleList 440 dtInt8 44100 1 (1 / 2),
          -(2 ^ (8 * dtInt8.itemsize - 1) - 1) ≤ x ∧ x ≤ 2 ^ (8 * dtInt8.itemsize - 1) - 1) ∧
      (squareWaveSamples 440 dtInt8 44100 1 (1 / 2)
          = Except.ok (squareSampleList 440 dtInt8 44100 1 (1 / 2)) ∧
        ∀ x ∈ squareSampleList 440 dtInt8 44100 1 (1 / 2),
          -(2 ^ (8 * dtInt8.itemsize - 1) - 1) ≤ x ∧ x ≤ 2 ^ (8 * dtInt8.itemsize - 1) - 1)) :=
  ⟨rfl, by decide, by norm_num, by norm_num,
    samples_in_range 440 dtInt8 44100 1 (1 / 2) rfl (by decide) (by norm_num) (by norm_num)⟩
